import Mathlib

/-!
# Verification of the coracle event-subscription core

Shallow embedding of `src/engine2/requests/subscription.ts` and the nip28
projection handlers, together with theorems settling the spec claims about
subscription lifecycle, dedup, verification, EOSE handling, the persistent
loop, and projection idempotence.

External collaborators (the `nostr-tools` signature verifier, the relay
attribution predicate `isShareableRelay`, the JSON decoder for channel
metadata, and the `Tags.relays()` extractor) are modelled as function
parameters, so every theorem quantifies over their behavior.
-/

namespace Coracle

/-- A nostr event (`src/engine2/model`): `{id, pubkey, created_at, kind, tags,
content, sig}` plus the derived `seen_on` relay-attribution list. -/
structure Event where
  id : String
  pubkey : String
  created_at : Nat
  kind : Nat
  tags : List (List String)
  content : String
  sig : String
  seen_on : List String
deriving DecidableEq

/-- A nostr filter as consumed by `nostr-tools`' `matchFilter`: optional id,
kind and author lists, a `#e` tag constraint, and a `since`/`until` time
range.  `none` encodes an absent field; `some 0` for `since`/`until` is
falsy in the JS implementation and imposes no constraint. -/
structure Filter where
  ids : Option (List String) := none
  kinds : Option (List Nat) := none
  authors : Option (List String) := none
  etags : Option (List String) := none
  since : Option Nat := none
  untilT : Option Nat := none
deriving DecidableEq

/-- Values of all tags named `name` with at least two entries
(`event.tags.find(([t, v]) => t === name && ...)` skips short tags since the
destructured value is `undefined`). -/
def tagValues (e : Event) (name : String) : List String :=
  e.tags.filterMap fun tg =>
    match tg with
    | t0 :: t1 :: _ => if t0 = name then some t1 else none
    | _ => none

/-- Boolean membership test on string lists (JS `includes` / `indexOf !== -1`). -/
def hasStr : List String → String → Bool
  | [], _ => false
  | x :: xs, y => if x = y then true else hasStr xs y

/-- `nostr-tools` v1 `matchFilter`: id and author lists match exactly or by
prefix; kinds match exactly; a `#e` constraint requires some `e` tag value to
occur in the constraint list (an empty constraint list is truthy in JS and
rejects every event); `since`/`until` are checked only when nonzero (JS
truthiness of `filter.since`). -/
def matchFilter (f : Filter) (e : Event) : Bool :=
  (match f.ids with
   | none => true
   | some l => hasStr l e.id || l.any fun p => e.id.startsWith p) &&
  (match f.kinds with
   | none => true
   | some l => l.any fun k => k = e.kind) &&
  (match f.authors with
   | none => true
   | some l => hasStr l e.pubkey || l.any fun p => e.pubkey.startsWith p) &&
  (match f.etags with
   | none => true
   | some l => (tagValues e "e").any fun v => hasStr l v) &&
  (match f.since with
   | none => true
   | some s => s = 0 || s ≤ e.created_at) &&
  (match f.untilT with
   | none => true
   | some u => u = 0 || e.created_at ≤ u)

/-- `nostr-tools` `matchFilters`: some filter in the list matches. -/
def matchFilters (fs : List Filter) (e : Event) : Bool :=
  fs.any fun f => matchFilter f e

/-- Keep-first deduplication by a string key with an explicit seen-set
accumulator: the recursion behind ramda's `uniq` and `uniqBy(prop("id"))`. -/
def dedupByAux {α : Type} (key : α → String) (seen : List String) : List α → List α
  | [] => []
  | x :: xs =>
    cond (hasStr seen (key x)) (dedupByAux key seen xs)
      (x :: dedupByAux key (key x :: seen) xs)

/-- ramda `uniqBy`: keep the first occurrence of each key. -/
def dedupBy {α : Type} (key : α → String) (l : List α) : List α :=
  dedupByAux key [] l

/-- ramda `uniq` on string lists. -/
def dedupStr (l : List String) : List String :=
  dedupBy (fun s => s) l

theorem hasStr_iff (l : List String) (y : String) : hasStr l y = true ↔ y ∈ l := by
  induction l with
  | nil => simp [hasStr]
  | cons a as ih =>
    by_cases h : a = y
    · simp [hasStr, h]
    · have h2 : ¬ (y = a) := fun hy => h hy.symm
      simp [hasStr, h, h2, ih]

theorem hasStr_false_iff (l : List String) (y : String) :
    hasStr l y = false ↔ y ∉ l := by
  cases he : hasStr l y
  · simp only [true_iff]
    exact fun hc => by rw [(hasStr_iff l y).2 hc] at he; exact Bool.true_eq_false ▸ he.symm ▸ rfl
  · simp only [Bool.true_eq_false, false_iff, not_not]
    exact (hasStr_iff l y).1 he

theorem hasStr_congr (s1 s2 : List String) (x : String)
    (h : ∀ y, y ∈ s1 ↔ y ∈ s2) : hasStr s1 x = hasStr s2 x := by
  by_cases hx : x ∈ s1
  · rw [(hasStr_iff s1 x).2 hx, (hasStr_iff s2 x).2 ((h x).1 hx)]
  · rw [(hasStr_false_iff s1 x).2 hx, (hasStr_false_iff s2 x).2 (fun hc => hx ((h x).2 hc))]

theorem mem_dedupByAux {α : Type} (key : α → String) (seen : List String)
    (l : List α) (x : α) (hx : x ∈ dedupByAux key seen l) : x ∈ l := by
  induction l generalizing seen with
  | nil => simp [dedupByAux] at hx
  | cons a as ih =>
    cases h : hasStr seen (key a)
    · simp only [dedupByAux, h, cond_false] at hx
      rcases List.mem_cons.1 hx with h1 | h2
      · exact h1 ▸ List.mem_cons_self a as
      · exact List.mem_cons_of_mem a (ih (key a :: seen) h2)
    · simp only [dedupByAux, h, cond_true] at hx
      exact List.mem_cons_of_mem a (ih seen hx)

theorem dedupByAux_congr {α : Type} (key : α → String) (s1 s2 : List String)
    (l : List α) (h : ∀ y, y ∈ s1 ↔ y ∈ s2) :
    dedupByAux key s1 l = dedupByAux key s2 l := by
  induction l generalizing s1 s2 with
  | nil => rfl
  | cons a as ih =>
    rw [dedupByAux, dedupByAux, hasStr_congr s1 s2 (key a) h]
    cases hc : hasStr s2 (key a)
    · rw [cond_false, cond_false,
        ih (key a :: s1) (key a :: s2) (by intro y; simp only [List.mem_cons]; rw [h y])]
    · rw [cond_true, cond_true, ih s1 s2 h]

theorem dedupByAux_append {α : Type} (key : α → String) (a b : List α) :
    ∀ s, dedupByAux key s (a ++ b) =
      dedupByAux key s a ++ dedupByAux key (a.map key ++ s) b := by
  induction a with
  | nil => intro s; simp [dedupByAux]
  | cons x xs ih =>
    intro s
    rw [List.cons_append]
    cases h : hasStr s (key x)
    · simp only [dedupByAux, h, cond_false, List.map_cons, List.cons_append]
      rw [ih (key x :: s),
        dedupByAux_congr key (List.map key xs ++ key x :: s) (key x :: (List.map key xs ++ s)) b
          (by intro y; simp only [List.mem_append, List.mem_cons]; tauto)]
    · simp only [dedupByAux, h, cond_true, List.map_cons, List.cons_append]
      rw [ih s,
        dedupByAux_congr key (List.map key xs ++ s) (key x :: (List.map key xs ++ s)) b
          (by
            intro y
            have hx : key x ∈ s := (hasStr_iff s (key x)).1 h
            simp only [List.mem_append, List.mem_cons]
            constructor
            · intro hy; exact Or.inr hy
            · rintro (hy | hy)
              · exact Or.inr (hy ▸ hx)
              · exact hy)]

theorem dedupByAux_key_not_seen {α : Type} (key : α → String) (s : List α)
    (seen : List String) (x : α) (hx : x ∈ dedupByAux key seen s) :
    key x ∉ seen := by
  induction s generalizing seen with
  | nil => simp [dedupByAux] at hx
  | cons a as ih =>
    cases h : hasStr seen (key a)
    · simp only [dedupByAux, h, cond_false] at hx
      rcases List.mem_cons.1 hx with h1 | h2
      · exact h1 ▸ (hasStr_false_iff seen (key a)).1 h
      · exact fun hc => ih (key a :: seen) h2 (List.mem_cons_of_mem (key a) hc)
    · simp only [dedupByAux, h, cond_true] at hx
      exact ih seen hx

theorem dedupByAux_keys_nodup {α : Type} (key : α → String) (l : List α) :
    ∀ seen, ((dedupByAux key seen l).map key).Nodup := by
  induction l with
  | nil => intro seen; simp [dedupByAux]
  | cons a as ih =>
    intro seen
    cases h : hasStr seen (key a)
    · simp only [dedupByAux, h, cond_false, List.map_cons, List.nodup_cons]
      refine ⟨?_, ih (key a :: seen)⟩
      intro hc
      rcases List.mem_map.1 hc with ⟨x, hx, hkx⟩
      exact dedupByAux_key_not_seen key as (key a :: seen) x hx
        (hkx ▸ List.mem_cons_self (key a) seen)
    · simp only [dedupByAux, h, cond_true]
      exact ih seen

theorem dedupByAux_all_seen {α : Type} (key : α → String) (l : List α)
    (seen : List String) (h : ∀ x ∈ l, key x ∈ seen) :
    dedupByAux key seen l = [] := by
  induction l with
  | nil => rfl
  | cons a as ih =>
    have ha : hasStr seen (key a) = true :=
      (hasStr_iff seen (key a)).2 (h a (List.mem_cons_self a as))
    simp only [dedupByAux, ha, cond_true]
    exact ih fun x hx => h x (List.mem_cons_of_mem a hx)

theorem dedupByAux_id_of_fresh {α : Type} (key : α → String) (l : List α) :
    ∀ seen, ((l.map key).Nodup) → (∀ x ∈ l, key x ∉ seen) →
      dedupByAux key seen l = l := by
  induction l with
  | nil => intro seen _ _; rfl
  | cons a as ih =>
    intro seen hnd hfresh
    rw [List.map_cons, List.nodup_cons] at hnd
    have ha : hasStr seen (key a) = false :=
      (hasStr_false_iff seen (key a)).2 (hfresh a (List.mem_cons_self a as))
    simp only [dedupByAux, ha, cond_false]
    rw [ih (key a :: seen) hnd.2 ?_]
    intro x hx
    intro hc
    rcases List.mem_cons.1 hc with h1 | h2
    · exact hnd.1 (h1 ▸ List.mem_map.2 ⟨x, hx, rfl⟩)
    · exact hfresh x (List.mem_cons_of_mem a hx) h2

/-- Key algebraic fact behind idempotent projection merges: re-merging a
fresh batch `a` into a store that already merged `a` changes nothing. -/
theorem dedupBy_merge_idem {α : Type} (key : α → String) (a b : List α) :
    dedupBy key (a ++ dedupBy key (a ++ b)) = dedupBy key (a ++ b) := by
  unfold dedupBy
  rw [dedupByAux_append key a b [], List.append_nil]
  rw [dedupByAux_append key a
    (dedupByAux key [] a ++ dedupByAux key (List.map key a) b) [], List.append_nil]
  rw [dedupByAux_append key (dedupByAux key [] a) (dedupByAux key (List.map key a) b)
    (List.map key a)]
  rw [dedupByAux_all_seen key (dedupByAux key [] a) (List.map key a)
    (fun x hx => List.mem_map.2 ⟨x, mem_dedupByAux key [] a x hx, rfl⟩)]
  rw [dedupByAux_id_of_fresh key (dedupByAux key (List.map key a) b)
    ((dedupByAux key [] a).map key ++ List.map key a)
    (dedupByAux_keys_nodup key b (List.map key a)) ?_]
  · rw [List.nil_append]
  · intro x hx hc
    have hnot : key x ∉ List.map key a :=
      dedupByAux_key_not_seen key b (List.map key a) x hx
    rcases List.mem_append.1 hc with h1 | h2
    · rcases List.mem_map.1 h1 with ⟨y, hy, hky⟩
      exact hnot (hky ▸ List.mem_map.2 ⟨y, mem_dedupByAux key [] a y hy, rfl⟩)
    · exact hnot h2

/-! ## Subscription lifecycle (`src/engine2/requests/subscription.ts`) -/

/-- `SubscriptionOpts`: relays, filters, optional timeout, optional
`shouldProject` flag.  `timeout = some 0` is falsy in the JS guards, exactly
like an absent timeout. -/
structure SubOpts where
  relays : List String
  filters : List Filter
  timeout : Option Nat := none
  shouldProject : Option Bool := none
deriving DecidableEq

/-- The mutable fields of a `Subscription` object, plus explicit observation
logs: `delivered` records the events actually handed to live-stream
listeners (`emit("event", ...)` while listeners are attached), `projected`
the events handed to `projections.push`, and `unsubCount`/`cleanupCount` the
number of transport `unsubscribe()`/`cleanup()` calls. -/
structure SubState where
  closed : Option Nat := none
  resolved : Option (List Event) := none
  events : List Event := []
  seen : List (String × List String) := []
  eose : List String := []
  delivered : List Event := []
  projected : List Event := []
  listenersActive : Bool := true
  unsubCount : Nat := 0
  cleanupCount : Nat := 0
deriving DecidableEq

/-- The state of a freshly constructed `Subscription` (before any callback
has fired). -/
def initState : SubState := {}

/-- JS truthiness of the `closed` field: `null` (none) and `0` are falsy, so
the `if (!this.closed)` guard in `close` treats a zero timestamp as "not yet
closed". -/
def closedTruthy : Option Nat → Bool
  | none => false
  | some c => decide (c ≠ 0)

/-- JS truthiness of the configured `timeout`. -/
def timeoutTruthy : Option Nat → Bool
  | none => false
  | some t => decide (t ≠ 0)

/-- `this.opts.shouldProject !== false`. -/
def projectEnabled (opts : SubOpts) : Bool :=
  decide (opts.shouldProject ≠ some false)

/-- `this.seen.get(event.id)`. -/
def lookupSeen : List (String × List String) → String → Option (List String)
  | [], _ => none
  | (k, v) :: rest, q => if k = q then some v else lookupSeen rest q

/-- In-place update of the attribution list stored for a given event id
(mirrors the JS `seen_on.push(url)` mutating the array held in the map). -/
def updateSeen (q : String) (f : List String → List String) :
    List (String × List String) → List (String × List String)
  | [] => []
  | (k, v) :: rest => if k = q then (k, f v) :: rest else (k, v) :: updateSeen q f rest

/-- The dedup branch of `onEvent`: append `url` to the attribution list iff
it is not already present and the relay is attribution-worthy
(`!seen_on.includes(url) && isShareableRelay(url)`). -/
def dedupTouch (shareable : String → Bool) (url : String) (l : List String) : List String :=
  cond (!hasStr l url && shareable url) (l ++ [url]) l

/-- First-delivery preprocessing: `event.seen_on = isShareableRelay(url) ?
[url] : []`.  (The subsequent `event.content = event.content || ""` is the
identity on the represented domain: a JS string is unchanged by `|| ""`, and
an absent content is represented as `""` already.) -/
def attachSeen (shareable : String → Bool) (url : String) (e : Event) : Event :=
  { e with seen_on := cond (shareable url) [url] [] }

/-- `onEvent(url, event)`: dedup on `event.id` (attribution-only update for
an already-seen id), otherwise record in `seen`, verify the signature,
re-check the filters, optionally push to the Projection Registry, and emit
on the live stream.  `verify` stands for `nostr-tools`' `verifySignature`
(wrapped in `tryFunc`) and `shareable` for `isShareableRelay`. -/
def onEvent (verify : Event → Bool) (shareable : String → Bool) (opts : SubOpts)
    (s : SubState) (url : String) (e : Event) : SubState :=
  match lookupSeen s.seen e.id with
  | some _ => { s with seen := updateSeen e.id (dedupTouch shareable url) s.seen }
  | none =>
    let ev := attachSeen shareable url e
    let s1 : SubState := { s with seen := (ev.id, ev.seen_on) :: s.seen }
    cond (!verify ev) s1
      (cond (!matchFilters opts.filters ev) s1
        (let s2 : SubState :=
          cond (projectEnabled opts) { s1 with projected := s1.projected ++ [ev] } s1
        cond s2.listenersActive { s2 with delivered := s2.delivered ++ [ev] } s2))

/-- `close()`: guarded by `if (!this.closed)`; records the close timestamp,
resolves the completion promise with the accumulated `events` list,
unsubscribes from the transport, cleans up the executor target, emits the
close notification and releases all listeners. -/
def close (t : Nat) (s : SubState) : SubState :=
  cond (closedTruthy s.closed) s
    { s with
      closed := some t
      resolved := some s.events
      unsubCount := s.unsubCount + 1
      cleanupCount := s.cleanupCount + 1
      listenersActive := false }

/-- `onEose(url)`: emit the EOSE notification, add the relay to the `eose`
set, and close early when a (truthy) timeout is configured and the number of
distinct EOSE relays equals `this.opts.relays.length` (the raw, possibly
duplicated, option list). -/
def onEose (opts : SubOpts) (t : Nat) (s : SubState) (url : String) : SubState :=
  let s1 : SubState :=
    cond (hasStr s.eose url) s { s with eose := s.eose ++ [url] }
  cond (timeoutTruthy opts.timeout && decide (s1.eose.length = opts.relays.length))
    (close t s1) s1

/-- One external stimulus handled by a subscription: an inbound event, an
EOSE signal (stamped with the clock value `Date.now()` would return if it
triggers the early close), or an explicit/timer close. -/
inductive Step where
  | ev : String → Event → Step
  | eose : Nat → String → Step
  | closeAt : Nat → Step
deriving DecidableEq

/-- Process one stimulus. -/
def stepRun (verify : Event → Bool) (shareable : String → Bool) (opts : SubOpts)
    (s : SubState) : Step → SubState
  | .ev url e => onEvent verify shareable opts s url e
  | .eose t url => onEose opts t s url
  | .closeAt t => close t s

/-- Process a sequence of stimuli in order. -/
def run (verify : Event → Bool) (shareable : String → Bool) (opts : SubOpts)
    (s : SubState) (steps : List Step) : SubState :=
  steps.foldl (stepRun verify shareable opts) s

/-- Modelled from the spec: `getUrls` (src/engine2/queries, absent from
src/) resolves the set of relay endpoints to query, "deduplicating
equivalent URLs" (§4.1).  URL normalization is taken as the identity, so
equivalence is plain equality here. -/
def getUrls (relays : List String) : List String :=
  dedupStr relays

/-- Modelled from the spec: the open-time validation (§7(e)) — "no relays
supplied, empty filter list; these are the only conditions that should fail
fast at subscription-open time, surfaced synchronously to the caller".  The
code performing it (in src/engine2/queries) is absent from src/; `start`
itself contains no other failure path.  A malformed filter list is not
representable in the typed embedding, so emptiness stands for both. -/
def openValidate (relays : List String) (filters : List Filter) : Except String Unit :=
  if relays = [] then Except.error "no relays supplied"
  else if filters = [] then Except.error "empty filter list"
  else Except.ok ()

/-- The relaunch step of `subscribePersistent`: after one subscription epoch
resolves, `opts = updateIn("filters", map(assoc("since", now())), opts)`
sets every filter cursor to the clock value at the moment of relaunch. -/
def advanceSince (t : Nat) (opts : SubOpts) : SubOpts :=
  { opts with filters := opts.filters.map fun f => { f with since := some t } }

/-! ## nip28 channel projections (the kind 40/41/42 handlers) -/

/-- The decoded channel-metadata payload (`JSON.parse(e.content)`); the
decoder itself is an external collaborator, modelled as a function
parameter of type `String → Option ChannelMeta` (`tryJson` yields `none` on
a decode error).  The JS truthiness check `meta?.name` is `name ≠ ""`. -/
structure ChannelMeta where
  name : String
  about : String := ""
  picture : String := ""
deriving DecidableEq

/-- A keyed reactive "channel" cell (§3): metadata, relay set, message set
(unique by event id), activity timestamps, nip28 ownership/membership, and
the last-write timestamp used by `updateKey`'s tie-break. -/
structure Channel where
  id : String := ""
  type : String := ""
  meta : Option ChannelMeta := none
  relays : List String := []
  messages : List Event := []
  last_sent : Option Nat := none
  last_received : Option Nat := none
  last_checked : Option Nat := none
  nip28_owner : Option String := none
  nip28_joined : Bool := false
  updated_at : Nat := 0
deriving DecidableEq

/-- The `channels` keyed reactive store, as a key-to-cell association list. -/
def Store : Type := List (String × Channel)

/-- `channels.key(id).get()`. -/
def storeGet : Store → String → Option Channel
  | [], _ => none
  | (k, v) :: rest, q => if k = q then some v else storeGet rest q

/-- `channels.key(id).set(value)`: replace the first binding for the key, or
append a fresh one. -/
def storeSet : Store → String → Channel → Store
  | [], q, v => [(q, v)]
  | (k, w) :: rest, q, v => if k = q then (q, v) :: rest else (k, w) :: storeSet rest q v

/-- `channels.key(id).update(fn)`: apply `fn` to the current value (or
`undefined`, i.e. `none`) and store the result. -/
def storeUpdate (q : String) (f : Option Channel → Channel) (st : Store) : Store :=
  storeSet st q (f (storeGet st q))

/-- `Tags.from(e).getMeta(k)` (src/util/nostr, absent from src/): the value
of the first tag named `k`. -/
def getMeta (e : Event) (k : String) : Option String :=
  (tagValues e k).head?

/-- Modelled from the spec: `updateKey` (src/engine2/projections/core,
absent from src/).  Per §3 and §4.3, a handler updating a timestamped cell
is last-write-wins by the event's embedded timestamp, keeping the maximum;
the relay collection merges with deduplication; the extra modifier `fn`
(ramda's `assocPath` in the handlers) is applied to the result. -/
def updateKey (oc : Option Channel) (t : Nat) (m : ChannelMeta)
    (rls : List String) (fn : Channel → Channel) : Channel :=
  let c := oc.getD {}
  fn (cond (decide (c.updated_at ≤ t))
    { c with
      meta := some m
      relays := dedupStr (rls ++ c.relays)
      updated_at := t }
    c)

/-- The kind-40 (channel creation) handler: on a decodable payload with a
truthy `name`, merge `{meta, relays}` into the cell keyed by the event id
and record the creator as the nip28 owner.  `pm` is the JSON decoder and
`rel` is `Tags.from(e).relays()` (both external to src/). -/
def handler40 (pm : String → Option ChannelMeta) (rel : Event → List String)
    (e : Event) (st : Store) : Store :=
  match pm e.content with
  | none => st
  | some m =>
    if m.name = "" then st
    else
      storeUpdate e.id
        (fun oc => updateKey oc e.created_at m (rel e)
          fun c => { c with nip28_owner := some e.pubkey }) st

/-- The kind-41 (channel metadata update) handler: requires an `e` tag
naming the channel and that the event's pubkey equals the recorded nip28
owner of that channel; otherwise it returns without touching the store. -/
def handler41 (pm : String → Option ChannelMeta) (rel : Event → List String)
    (e : Event) (st : Store) : Store :=
  match getMeta e "e" with
  | none => st
  | some channelId =>
    if some e.pubkey ≠ ((storeGet st channelId).bind fun c => c.nip28_owner) then st
    else
      match pm e.content with
      | none => st
      | some m =>
        if m.name = "" then st
        else storeUpdate channelId
          (fun oc => updateKey oc e.created_at m (rel e) id) st

/-- The cell-update closure of the kind-42 handler (`$channel => {...}`):
spread the current channel (or `undefined`), force `id`/`type`, merge the
tag relays and the message set (unique by event id), then bump `last_sent`
or `last_received` to the maximum with the event's `created_at` depending on
whether the author is one of the user's keys. -/
def messageMerge (rls : List String) (ks : List String) (e : Event) (cid : String)
    (oc : Option Channel) : Channel :=
  let c := oc.getD {}
  let upd : Channel :=
    { c with
      id := cid
      type := "nip28"
      relays := dedupStr (rls ++ c.relays)
      messages := dedupBy Event.id ([e] ++ c.messages) }
  cond (hasStr ks e.pubkey)
    { upd with last_sent := some (max (upd.last_sent.getD 0) e.created_at) }
    { upd with last_received := some (max (upd.last_received.getD 0) e.created_at) }

/-- The kind-42 (channel message) handler: requires an `e` tag naming the
channel; updates that channel cell via `messageMerge`.  `ks` is
`pluck("pubkey", keys.get())`. -/
def handler42 (rel : Event → List String) (ks : List String)
    (e : Event) (st : Store) : Store :=
  match getMeta e "e" with
  | none => st
  | some channelId => storeUpdate channelId (messageMerge (rel e) ks e channelId) st

/-! ## Store and merge lemmas -/

theorem storeGet_storeSet (st : Store) (q : String) (v : Channel) :
    storeGet (storeSet st q v) q = some v := by
  induction st with
  | nil => simp [storeSet, storeGet]
  | cons kv rest ih =>
    obtain ⟨k, w⟩ := kv
    by_cases h : k = q
    · simp [storeSet, storeGet, h]
    · simp [storeSet, storeGet, h, ih]

theorem storeSet_same (st : Store) (q : String) (v : Channel)
    (h : storeGet st q = some v) : storeSet st q v = st := by
  induction st with
  | nil => simp [storeGet] at h
  | cons kv rest ih =>
    obtain ⟨k, w⟩ := kv
    by_cases hk : k = q
    · subst hk
      have h2 : w = v := by simpa [storeGet] using h
      subst h2
      simp [storeSet]
    · simp only [storeGet, if_neg hk] at h
      simp [storeSet, hk, ih h]

theorem storeUpdate_idem (q : String) (f : Option Channel → Channel) (st : Store)
    (hf : f (some (f (storeGet st q))) = f (storeGet st q)) :
    storeUpdate q f (storeUpdate q f st) = storeUpdate q f st := by
  unfold storeUpdate
  rw [storeGet_storeSet, hf]
  exact storeSet_same _ _ _ (storeGet_storeSet st q (f (storeGet st q)))

/-- String-list instance of the merge-idempotence fact. -/
theorem dedupStr_merge_idem (a b : List String) :
    dedupStr (a ++ dedupStr (a ++ b)) = dedupStr (a ++ b) :=
  dedupBy_merge_idem (fun s => s) a b

/-- Merge idempotence against an initially empty collection. -/
theorem dedupStr_merge_idem_nil (a : List String) :
    dedupStr (a ++ dedupStr a) = dedupStr a := by
  have h := dedupStr_merge_idem a []
  simpa using h

/-- Merge idempotence for a single fresh element (the message-set merge). -/
theorem dedupBy_cons_merge_idem {α : Type} (key : α → String) (x : α) (b : List α) :
    dedupBy key (x :: dedupBy key (x :: b)) = dedupBy key (x :: b) := by
  have h := dedupBy_merge_idem key [x] b
  simpa using h

theorem max_absorb (a t : Nat) : max (max a t) t = max a t := by
  rw [max_assoc, max_self]

theorem lookupSeen_updateSeen (sn : List (String × List String)) (q : String)
    (f : List String → List String) (l : List String) (h : lookupSeen sn q = some l) :
    lookupSeen (updateSeen q f sn) q = some (f l) := by
  induction sn with
  | nil => simp [lookupSeen] at h
  | cons kv rest ih =>
    obtain ⟨k, v⟩ := kv
    by_cases hk : k = q
    · subst hk
      have h2 : v = l := by simpa [lookupSeen] using h
      subst h2
      simp [updateSeen, lookupSeen]
    · simp only [lookupSeen, if_neg hk] at h
      simp [updateSeen, lookupSeen, hk, ih h]

theorem updateKey_idem_owner (t : Nat) (m : ChannelMeta) (rls : List String)
    (pk : String) (oc : Option Channel) :
    updateKey (some (updateKey oc t m rls fun c => { c with nip28_owner := some pk }))
        t m rls (fun c => { c with nip28_owner := some pk }) =
      updateKey oc t m rls fun c => { c with nip28_owner := some pk } := by
  rcases oc with _ | c
  · simp [updateKey, Nat.zero_le, dedupStr_merge_idem, dedupStr_merge_idem_nil]
  · obtain ⟨i, ty, me, rl, ms, ls, lr, lc, ow, jn, ua⟩ := c
    by_cases h : ua ≤ t
    · simp [updateKey, h, dedupStr_merge_idem, dedupStr_merge_idem_nil]
    · simp [updateKey, h]

theorem messageMerge_idem (rls : List String) (ks : List String) (e : Event)
    (cid : String) (oc : Option Channel) :
    messageMerge rls ks e cid (some (messageMerge rls ks e cid oc)) =
      messageMerge rls ks e cid oc := by
  rcases oc with _ | c
  · cases hks : hasStr ks e.pubkey <;>
      simp [messageMerge, hks, dedupStr_merge_idem, dedupStr_merge_idem_nil,
        dedupBy_cons_merge_idem, max_absorb]
  · obtain ⟨i, ty, me, rl, ms, ls, lr, lc, ow, jn, ua⟩ := c
    cases hks : hasStr ks e.pubkey <;>
      simp [messageMerge, hks, dedupStr_merge_idem, dedupStr_merge_idem_nil,
        dedupBy_cons_merge_idem, max_absorb]

/-! ## Concrete fixtures (the section 8 scenario and variants) -/

/-- A signature verifier that accepts every event. -/
def verifyAll : Event → Bool := fun _ => true

/-- An `isShareableRelay` that deems every relay attribution-worthy. -/
def shareAll : String → Bool := fun _ => true

/-- The section 8 filter: kind 42, `#e` constrained to channel-X. -/
def filter42 : Filter := { kinds := some [42], etags := some ["channel-X"] }

/-- The section 8 subscription options: two relays, one filter, 5000ms timeout. -/
def opts1 : SubOpts := { relays := ["R1", "R2"], filters := [filter42], timeout := some 5000 }

/-- The section 8 event e1 (id A, created_at 100), kind 42 tagged to channel-X. -/
def e1 : Event :=
  { id := "A", pubkey := "P1", created_at := 100, kind := 42
    tags := [["e", "channel-X"]], content := "hello", sig := "sig1", seen_on := [] }

/-- The section 8 stimulus sequence: R1 delivers e1, R2 redelivers the same
id, then both relays signal EOSE before the 5000ms timeout. -/
def scenario1 : List Step :=
  [Step.ev "R1" e1, Step.ev "R2" e1, Step.eose 200 "R1", Step.eose 300 "R2"]

/-- The subscription state after the first delivery of e1 from R1. -/
def subAfterFirst : SubState := onEvent verifyAll shareAll opts1 initState "R1" e1

/-- A kind-1 event that does not satisfy `filter42`. -/
def eBad : Event :=
  { id := "Z", pubkey := "P9", created_at := 100, kind := 1
    tags := [], content := "junk", sig := "sigZ", seen_on := [] }

/-- Options whose relay list holds the same URL twice (two equivalent URLs). -/
def optsDup : SubOpts :=
  { relays := ["wss://a", "wss://a"], filters := [filter42], timeout := some 5000 }

/-! ## Claims -/

/-- C1: the claim reads close as resolving the completion value with the
accumulated list of delivered-and-emitted events (in the section 8
scenario, `[e1]`).  The code is a slip against this: `this.events` is
initialized to `[]`, resolved by `close` and emitted in the close
notification, but `onEvent` never appends to it, so in the very scenario
the spec describes — e1 delivered by R1, redelivered by R2, both relays
EOSE before the timeout — the subscription closes early with completion
value `some []` even though e1 was delivered, emitted on the live stream,
and attributed to both relays. -/
theorem c1_scenario_completion_value :
    (run verifyAll shareAll opts1 initState scenario1).closed = some 300 ∧
    (run verifyAll shareAll opts1 initState scenario1).resolved = some [] ∧
    (run verifyAll shareAll opts1 initState scenario1).delivered =
      [attachSeen shareAll "R1" e1] ∧
    lookupSeen (run verifyAll shareAll opts1 initState scenario1).seen "A" =
      some ["R1", "R2"] := by
  refine ⟨?_, ?_, ?_, ?_⟩ <;> rfl

/-- C2: delivering an event whose id is already in the seen map changes
nothing but that id's attribution list — no verification, no filter check,
no projection push, no live-stream emission, no change to any other state
component — and the attribution list grows by the delivering relay exactly
when the relay is not yet recorded and is attribution-worthy.  Hence the
processing pipeline runs at most on the first delivery of each id. -/
theorem c2_duplicate_delivery_attribution_only (verify : Event → Bool)
    (shareable : String → Bool) (opts : SubOpts) (s : SubState) (url : String)
    (e : Event) (l : List String) (h : lookupSeen s.seen e.id = some l) :
    onEvent verify shareable opts s url e =
      { s with seen := updateSeen e.id (dedupTouch shareable url) s.seen } ∧
    lookupSeen (updateSeen e.id (dedupTouch shareable url) s.seen) e.id =
      some (dedupTouch shareable url l) := by
  constructor
  · simp only [onEvent, h]
  · exact lookupSeen_updateSeen s.seen e.id (dedupTouch shareable url) l h

/-- Witness for C2 at the section 8 scenario: R2 redelivers id A after R1's
delivery; only the attribution list changes, growing to `["R1", "R2"]`. -/
theorem c2_witness :
    (onEvent verifyAll shareAll opts1 subAfterFirst "R2" e1 =
      { subAfterFirst with
        seen := updateSeen "A" (dedupTouch shareAll "R2") subAfterFirst.seen }) ∧
    lookupSeen (updateSeen "A" (dedupTouch shareAll "R2") subAfterFirst.seen) "A" =
      some (dedupTouch shareAll "R2" ["R1"]) :=
  c2_duplicate_delivery_attribution_only verifyAll shareAll opts1 subAfterFirst
    "R2" e1 ["R1"] (by rfl)

theorem attachSeen_id (shareable : String → Bool) (url : String) (e : Event) :
    (attachSeen shareable url e).id = e.id := rfl

/-- C3: a first-delivery event that fails signature verification, or fails
the local filter re-check, is dropped: the only state change is the new
seen-map record, so it is never pushed to the Projection Registry and never
emitted on the live stream. -/
theorem c3_unverified_or_unmatched_dropped (verify : Event → Bool)
    (shareable : String → Bool) (opts : SubOpts) (s : SubState) (url : String)
    (e : Event) (hfresh : lookupSeen s.seen e.id = none)
    (hdrop : verify (attachSeen shareable url e) = false ∨
      matchFilters opts.filters (attachSeen shareable url e) = false) :
    onEvent verify shareable opts s url e =
      { s with seen := (e.id, (attachSeen shareable url e).seen_on) :: s.seen } := by
  rcases hdrop with hv | hm
  · simp only [onEvent, hfresh, hv, Bool.not_false, cond_true, attachSeen_id]
  · cases hverify : verify (attachSeen shareable url e)
    · simp only [onEvent, hfresh, hverify, Bool.not_false, cond_true, attachSeen_id]
    · simp only [onEvent, hfresh, hverify, Bool.not_true, cond_false, hm,
        Bool.not_false, cond_true, attachSeen_id]

/-- Witness for C3: the kind-1 event eBad does not match `filter42`, so its
fresh delivery only records it as seen. -/
theorem c3_witness :
    onEvent verifyAll shareAll opts1 initState "R1" eBad =
      { initState with
        seen := (eBad.id, (attachSeen shareAll "R1" eBad).seen_on) :: initState.seen } :=
  c3_unverified_or_unmatched_dropped verifyAll shareAll opts1 initState "R1" eBad
    (by rfl) (Or.inr (by rfl))

/-- EOSE-processing invariant: with a truthy timeout, a relay list
`done ++ rest` with no duplicates, `eose` currently holding exactly `done`
and the subscription still open, processing an EOSE signal from each relay
of the nonempty remainder `rest` ends with the subscription closed at the
clock value of the triggering signal. -/
theorem runEose_all_closes (verify : Event → Bool) (shareable : String → Bool)
    (opts : SubOpts) (T tc : Nat) (hT : opts.timeout = some T) (hT0 : T ≠ 0) :
    ∀ rest done (s : SubState), opts.relays = done ++ rest → (done ++ rest).Nodup →
      rest ≠ [] → s.eose = done → s.closed = none →
      (run verify shareable opts s (rest.map (Step.eose tc))).closed = some tc := by
  intro rest
  induction rest with
  | nil => intro done s _ _ hne; exact absurd rfl hne
  | cons u us ih =>
    intro done s hrel hnd _ heose hclosed
    have hu : u ∉ done := by
      rcases (List.nodup_append.1 hnd) with ⟨_, _, hdisj⟩
      exact fun hc => hdisj hc (List.mem_cons_self u us)
    have hu2 : hasStr s.eose u = false := by
      rw [heose]; exact (hasStr_false_iff done u).2 hu
    have hA : timeoutTruthy opts.timeout = true := by
      rw [hT]; simp [timeoutTruthy, hT0]
    have hlen : opts.relays.length = done.length + 1 + us.length := by
      rw [hrel]; simp only [List.length_append, List.length_cons]; omega
    rw [List.map_cons, run, List.foldl_cons]
    show (run verify shareable opts (onEose opts tc s u) (us.map (Step.eose tc))).closed = some tc
    cases us with
    | nil =>
      have hcond : decide ((s.eose ++ [u]).length = opts.relays.length) = true := by
        rw [heose, hlen]; simp
      simp only [onEose, hu2, cond_false, hcond, hA, Bool.and_self, cond_true]
      simp only [List.map_nil, run, List.foldl_nil]
      simp [close, closedTruthy, hclosed]
    | cons u2 us2 =>
      have hcond : decide ((s.eose ++ [u]).length = opts.relays.length) = false := by
        rw [heose, hlen]
        simp only [List.length_append, List.length_cons, List.length_nil,
          decide_eq_false_iff_not]
        omega
      simp only [onEose, hu2, cond_false, hcond, hA, Bool.and_false, cond_false]
      exact ih (done ++ [u]) { s with eose := s.eose ++ [u] }
        (by rw [hrel]; simp)
        (by
          have h2 : done ++ [u] ++ u2 :: us2 = done ++ u :: u2 :: us2 := by simp
          rw [h2]; exact hnd)
        (by simp)
        (by simp [heose])
        hclosed

/-- C4 (amended): with a configured nonzero timeout and a duplicate-free
relay option list, once every relay of `opts.relays` has signaled EOSE the
subscription is closed at the clock value of the last signal — before any
timer fires (the processed trace holds nothing but the EOSE signals).  The
code compares the distinct-EOSE count against the length of the raw
`opts.relays` list, so when that list contains duplicate (equivalent) URLs
the comparison can never be met: the original claim, stated over the
deduplicated queried URLs, fails (see the counterexample). -/
theorem c4_all_relays_eose_closes_early (verify : Event → Bool)
    (shareable : String → Bool) (opts : SubOpts) (T tc : Nat)
    (hT : opts.timeout = some T) (hT0 : T ≠ 0) (hnd : opts.relays.Nodup)
    (hne : opts.relays ≠ []) :
    (run verify shareable opts initState (opts.relays.map (Step.eose tc))).closed =
      some tc :=
  runEose_all_closes verify shareable opts T tc hT hT0 opts.relays [] initState
    rfl hnd hne rfl rfl

/-- Witness for C4 at the section 8 options: both R1 and R2 signal EOSE at
clock 99 and the subscription is closed at 99, long before the 5000ms
timeout. -/
theorem c4_witness :
    (run verifyAll shareAll opts1 initState (opts1.relays.map (Step.eose 99))).closed =
      some 99 :=
  c4_all_relays_eose_closes_early verifyAll shareAll opts1 5000 99 rfl
    (by decide) (by decide) (by decide)

/-- Counterexample to C4 as stated: with the duplicated relay list
`["wss://a", "wss://a"]` the queried set after URL deduplication is just
`["wss://a"]`; after its EOSE signal every queried relay has signaled, yet
the subscription stays open, because the code compares against the raw
list's length 2. -/
theorem c4_counterexample :
    (∀ u ∈ getUrls optsDup.relays,
      u ∈ (run verifyAll shareAll optsDup initState [Step.eose 100 "wss://a"]).eose) ∧
    (run verifyAll shareAll optsDup initState [Step.eose 100 "wss://a"]).closed =
      none := by
  refine ⟨?_, rfl⟩
  decide

/-- C5 (amended): after `close` has run, no delivered event reaches a
live-stream listener — `close` released all listeners — so the event stream
is observably silent.  (The original claim also asserted no projection push
after close; `onEvent` has no closed-guard, so a fresh valid matching event
delivered after close is still pushed to the Projection Registry — see the
counterexample.  In practice close's transport unsubscribe prevents such
deliveries.) -/
theorem c5_no_listener_delivery_after_close (verify : Event → Bool)
    (shareable : String → Bool) (opts : SubOpts) (s : SubState) (t : Nat)
    (url : String) (e : Event) (h : closedTruthy s.closed = false) :
    (onEvent verify shareable opts (close t s) url e).delivered =
      (close t s).delivered := by
  have hla : (close t s).listenersActive = false := by
    simp [close, h]
  cases hlook : lookupSeen (close t s).seen e.id
  · cases hv : verify (attachSeen shareable url e) <;>
      cases hm : matchFilters opts.filters (attachSeen shareable url e) <;>
      cases hp : projectEnabled opts <;>
      simp only [onEvent, hlook, hv, hm, hp, hla, Bool.not_true, Bool.not_false,
        cond_false, cond_true]
  · simp only [onEvent, hlook]

/-- Witness for C5 (amended): e1 delivered after the subscription closed at
clock 1 reaches no listener. -/
theorem c5_witness :
    (onEvent verifyAll shareAll opts1 (close 1 initState) "R1" e1).delivered =
      (close 1 initState).delivered :=
  c5_no_listener_delivery_after_close verifyAll shareAll opts1 initState 1
    "R1" e1 (by rfl)

/-- Counterexample to C5 as stated: the subscription is closed (truthy
closed timestamp), yet delivering the fresh valid matching event e1 grows
the Projection Registry log — an observable state change after close. -/
theorem c5_counterexample :
    (onEvent verifyAll shareAll opts1 (close 1 initState) "R1" e1).projected ≠
      (close 1 initState).projected ∧
    closedTruthy (close 1 initState).closed = true := by
  refine ⟨?_, rfl⟩
  decide

/-- C6 (amended): `close` is a no-op on a subscription already closed with a
nonzero closed-at timestamp, so — as `Date.now()` is nonzero in any real
execution — the transport unsubscribe/cleanup runs exactly once however
often close is called.  The guard is the JS truthiness test
`if (!this.closed)`, so a subscription whose first close stamped the clock
value 0 is treated as still open and close runs again (see the
counterexample); only that one clock value escapes the guard. -/
theorem c6_close_noop_when_closed_nonzero (s : SubState) (t c : Nat)
    (hc : s.closed = some c) (h0 : c ≠ 0) : close t s = s := by
  simp [close, closedTruthy, hc, h0]

/-- Witness for C6 (amended): a second close at clock 7 after a first close
at clock 1 changes nothing. -/
theorem c6_witness : close 7 (close 1 initState) = close 1 initState :=
  c6_close_noop_when_closed_nonzero (close 1 initState) 7 1 (by rfl) (by decide)

/-- Counterexample to C6 as stated: if the first close stamps clock value 0,
a second close at clock 5 is not a no-op — the closed-at timestamp moves to
5 and the transport unsubscribe count reaches 2. -/
theorem c6_counterexample :
    close 5 (close 0 initState) ≠ close 0 initState ∧
    (close 5 (close 0 initState)).unsubCount = 2 := by
  refine ⟨?_, rfl⟩
  decide

/-- C7: after one persistent-loop epoch resolves, the relaunch sets every
filter's `since` cursor to the relaunch clock value; with a monotone clock
(relaunch time at or after the previous epoch's close time) each reopened
filter carries a cursor at or above the close time, and no event with
`created_at` below the cursor satisfies any reopened filter. -/
theorem c7_persistent_cursor_advance (opts : SubOpts) (tClose tRelaunch : Nat)
    (f : Filter) (e : Event) (hmono : tClose ≤ tRelaunch)
    (hf : f ∈ (advanceSince tRelaunch opts).filters)
    (he : e.created_at < tRelaunch) :
    f.since = some tRelaunch ∧ tClose ≤ (f.since.getD 0) ∧ matchFilter f e = false := by
  simp only [advanceSince, List.mem_map] at hf
  rcases hf with ⟨f0, _, rfl⟩
  have ht0 : ¬ (tRelaunch = 0) := by omega
  have hle : ¬ (tRelaunch ≤ e.created_at) := by omega
  refine ⟨rfl, by simpa using hmono, ?_⟩
  simp [matchFilter, ht0, hle]

/-- Witness for C7: relaunching the section 8 options at clock 20 after a
close at clock 10 yields the cursor-bearing filter, and a stale event with
created_at 5 cannot match it. -/
theorem c7_witness :
    ({ filter42 with since := some 20 } : Filter).since = some 20 ∧
    10 ≤ (({ filter42 with since := some 20 } : Filter).since.getD 0) ∧
    matchFilter { filter42 with since := some 20 }
      { id := "O", pubkey := "P2", created_at := 5, kind := 42
        tags := [["e", "channel-X"]], content := "old", sig := "s0", seen_on := [] } =
      false :=
  c7_persistent_cursor_advance opts1 10 20 { filter42 with since := some 20 }
    { id := "O", pubkey := "P2", created_at := 5, kind := 42
      tags := [["e", "channel-X"]], content := "old", sig := "s0", seen_on := [] }
    (by decide) (by decide) (by decide)

/-- C8: subscription-open validation fails exactly on an empty relay set or
an empty filter list, and the failure is the synchronous return value of the
open call — no other input fails at open time. -/
theorem c8_open_validation (relays : List String) (filters : List Filter) :
    (∃ msg, openValidate relays filters = Except.error msg) ↔
      relays = [] ∨ filters = [] := by
  constructor
  · rintro ⟨msg, hmsg⟩
    by_cases h1 : relays = []
    · exact Or.inl h1
    · by_cases h2 : filters = []
      · exact Or.inr h2
      · simp [openValidate, h1, h2] at hmsg
  · rintro (h | h)
    · exact ⟨"no relays supplied", by simp [openValidate, h]⟩
    · by_cases h1 : relays = []
      · exact ⟨"no relays supplied", by simp [openValidate, h1]⟩
      · exact ⟨"empty filter list", by simp [openValidate, h1, h]⟩

/-- C9: the channel projection handlers are idempotent merges — for any
JSON decoder, tag-relay extractor, user-key list, event and store state,
applying the kind-40 (channel metadata) handler or the kind-42 (channel
message) handler twice in succession leaves exactly the state of applying
it once: message sets merge by unique event id, timestamp fields keep the
maximum, and relay sets deduplicate. -/
theorem c9_projection_handlers_idempotent (pm : String → Option ChannelMeta)
    (rel : Event → List String) (ks : List String) (e : Event) (st : Store) :
    handler40 pm rel e (handler40 pm rel e st) = handler40 pm rel e st ∧
    handler42 rel ks e (handler42 rel ks e st) = handler42 rel ks e st := by
  constructor
  · cases hpm : pm e.content
    · simp [handler40, hpm]
    case some m =>
      by_cases hname : m.name = ""
      · simp [handler40, hpm, hname]
      · simp only [handler40, hpm, if_neg hname]
        exact storeUpdate_idem e.id _ st
          (updateKey_idem_owner e.created_at m (rel e) e.pubkey (storeGet st e.id))
  · cases hg : getMeta e "e"
    · simp [handler42, hg]
    case some cid =>
      simp only [handler42, hg]
      exact storeUpdate_idem cid _ st
        (messageMerge_idem (rel e) ks e cid (storeGet st cid))

/-- A channel cell whose recorded nip28 owner is alice. -/
def stOwned : Store := [("chan1", { nip28_owner := some "alice" })]

/-- A kind-41 metadata-update event signed by bob targeting chan1. -/
def e41bob : Event :=
  { id := "B", pubkey := "bob", created_at := 50, kind := 41
    tags := [["e", "chan1"]], content := "{}", sig := "sB", seen_on := [] }

/-- A JSON decoder that always yields a named payload. -/
def pmRoom : String → Option ChannelMeta := fun _ => some { name := "room" }

/-- A tag-relay extractor returning no relays. -/
def relNil : Event → List String := fun _ => []

/-- C10: the kind-41 handler enforces channel ownership — whenever the
event carries no `e` tag, or the targeted cell records no nip28 owner (or
does not exist), or records an owner different from the event's pubkey, the
store is left completely unchanged; contrapositively, only the recorded
owner's events can update a channel's metadata. -/
theorem c10_kind41_ownership_frame (pm : String → Option ChannelMeta)
    (rel : Event → List String) (e : Event) (st : Store)
    (h : ∀ cid, getMeta e "e" = some cid →
      ((storeGet st cid).bind fun c => c.nip28_owner) ≠ some e.pubkey) :
    handler41 pm rel e st = st := by
  cases hg : getMeta e "e"
  · simp [handler41, hg]
  case some cid =>
    have hne : some e.pubkey ≠ ((storeGet st cid).bind fun c => c.nip28_owner) :=
      fun hc => h cid hg hc.symm
    simp [handler41, hg, hne]

/-- Witness for C10: bob's kind-41 event against alice's channel leaves the
store untouched. -/
theorem c10_witness : handler41 pmRoom relNil e41bob stOwned = stOwned :=
  c10_kind41_ownership_frame pmRoom relNil e41bob stOwned
    (by
      intro cid hc
      have h0 : getMeta e41bob "e" = some "chan1" := rfl
      rw [h0] at hc
      injection hc with h1
      rw [Eq.symm h1]
      decide)

end Coracle
